import Mathlib

/-
  Verification of the ReFast result-aggregation and navigation core.

  The definitions below are a shallow embedding of the TypeScript source:
  - `src/components/EverythingSearchWindow.tsx` (streaming accumulator for the
    disk-search source: batch listener, final-response override, cancellation),
  - `src/components/LauncherWindow.tsx` (launcher-side disk-search flow:
    `searchEverything`, the batch listener, the scroll-driven display window,
    the debounced query dispatcher, `extractUrls`),
  - `src/utils/keyboardUtils.ts` (`handleKeyDown`, the two-axis navigation
    state machine).
  React `useState` setters become record updates; `useRef` cells become record
  fields; the asynchronous interleavings are modelled as explicit event lists
  folded over the state.
-/

namespace ReFast

/-- One disk-search hit (`EverythingResult` in `src/types`); `path` is the
de-duplication key, `name` stands for the remaining payload. -/
structure EverythingResult where
  name : String
  path : String
deriving DecidableEq, Repr

/-- Per-query request record `{ query, cancelled }` held in
`currentSearchRef` (both windows). -/
structure SearchRequest where
  query : String
  cancelled : Bool
deriving DecidableEq, Repr

/-- `seenPaths.has(r.path)` over a previously accumulated list: is some
element's path equal to `p`. -/
def pathMem (rs : List EverythingResult) (p : String) : Bool :=
  rs.any (fun r => r.path == p)

/-- De-duplication loop of `EverythingSearchWindow.searchEverything`
(lines 122-129): walk the response in order, keep a result only if its path
was not seen before (first occurrence wins). -/
def dedupAux (seen : List String) : List EverythingResult → List EverythingResult
  | [] => []
  | r :: rest =>
    if seen.contains r.path then dedupAux seen rest
    else r :: dedupAux (r.path :: seen) rest

/-- De-duplicate a result list by `path`, first occurrence wins. -/
def dedupByPath (rs : List EverythingResult) : List EverythingResult :=
  dedupAux [] rs

/-! ## EverythingSearchWindow: streaming accumulator -/

/-- Observable state of `EverythingSearchWindow` relevant to the disk-search
accumulator: `results`, `totalCount`, `currentCount`, `isSearching` states and
the `currentSearchRef` ref. -/
structure ESState where
  results : List EverythingResult
  totalCount : Option Nat
  currentCount : Nat
  isSearching : Bool
  currentSearch : Option SearchRequest
deriving DecidableEq, Repr

/-- The `everything-search-batch` listener of `EverythingSearchWindow`
(lines 45-60): if `currentSearchRef.current?.cancelled` is truthy the event is
dropped; otherwise the batch is appended minus the results whose path is
already present, and `totalCount` / `currentCount` are taken from the event. -/
def applyBatchES (batch : List EverythingResult) (tc cc : Nat) (s : ESState) : ESState :=
  if (s.currentSearch.map (fun r => r.cancelled)).getD false then s
  else
    { s with
      results := s.results ++ batch.filter (fun r => !pathMem s.results r.path)
      totalCount := some tc
      currentCount := cc }

/-- Resolution of the awaited `tauriApi.searchEverything` call in
`EverythingSearchWindow.searchEverything` (lines 113-133 plus the `finally`
block): dropped unless the current request is non-cancelled and carries the
same query string; otherwise the accumulation is replaced by the de-duplicated
authoritative list, `totalCount` by the authoritative count, and
`isSearching` cleared. -/
def applyFinalES (q : String) (resp : List EverythingResult) (tc : Nat) (s : ESState) : ESState :=
  match s.currentSearch with
  | none => s
  | some r =>
    if r.cancelled || r.query != q then s
    else
      { s with
        results := dedupByPath resp
        totalCount := some tc
        currentCount := (dedupByPath resp).length
        isSearching := false }

/-! ## LauncherWindow: disk-search flow, display window, cancellation -/

/-- Base / increment of the display window
(`const MAX_DISPLAY_RESULTS = 500`, LauncherWindow line 30). -/
def MAX_DISPLAY_RESULTS : Nat := 500

/-- Observable state of `LauncherWindow` relevant to the disk-search source:
`everythingResults`, `everythingTotalCount`, `everythingCurrentCount`,
`displayedResultsCount`, `isSearchingEverything` states, and the
`finalResultsSetRef` / `currentSearchRef` refs. -/
structure LState where
  everythingResults : List EverythingResult
  everythingTotalCount : Option Nat
  everythingCurrentCount : Nat
  displayedResultsCount : Nat
  finalResultsSet : Bool
  isSearchingEverything : Bool
  currentSearch : Option SearchRequest
deriving DecidableEq, Repr

/-- Initial React state of `LauncherWindow`: empty results, no counts,
display window at the base of 500, refs cleared. -/
def initL : LState :=
  { everythingResults := []
    everythingTotalCount := none
    everythingCurrentCount := 0
    displayedResultsCount := MAX_DISPLAY_RESULTS
    finalResultsSet := false
    isSearchingEverything := false
    currentSearch := none }

/-- Start of `LauncherWindow.searchEverything` (lines 574-600).  If the
service is unavailable the results are cleared and nothing else happens.
Otherwise the previous request (if any) is marked cancelled, a fresh
`{ query, cancelled: false }` becomes current, the disk-search state and the
display window are reset, and `finalResultsSetRef` is cleared.  The first
component returns the previous request as it stands after the
`currentSearchRef.current.cancelled = true` write. -/
def startSearchEverything (available : Bool) (q : String) (s : LState) :
    Option SearchRequest × LState :=
  if !available then
    (none,
     { s with
       everythingResults := []
       everythingTotalCount := none
       isSearchingEverything := false })
  else
    (s.currentSearch.map (fun r => { r with cancelled := true }),
     { s with
       everythingResults := []
       everythingTotalCount := none
       everythingCurrentCount := 0
       displayedResultsCount := MAX_DISPLAY_RESULTS
       isSearchingEverything := true
       finalResultsSet := false
       currentSearch := some { query := q, cancelled := false } })

/-- The `everything-search-batch` listener of `LauncherWindow` (lines 541-572):
dropped only when `currentSearchRef.current?.cancelled` is truthy; otherwise it
updates `everythingTotalCount` and `everythingCurrentCount` (it does not
accumulate items, and it never consults `finalResultsSetRef`). -/
def applyBatchL (tc cc : Nat) (s : LState) : LState :=
  if (s.currentSearch.map (fun r => r.cancelled)).getD false then s
  else { s with everythingTotalCount := some tc, everythingCurrentCount := cc }

/-- Successful resolution of the awaited `tauriApi.searchEverything` call in
`LauncherWindow.searchEverything` (lines 602-636 plus the `finally` block):
dropped unless the current request is non-cancelled with the same query
string; otherwise `finalResultsSetRef` is set, the results are replaced by the
authoritative list as delivered, the counts by the authoritative values, and
the display window by `min(response.results.length, MAX_DISPLAY_RESULTS)`. -/
def resolveOkL (q : String) (resp : List EverythingResult) (tc : Nat) (s : LState) : LState :=
  match s.currentSearch with
  | none => s
  | some r =>
    if r.cancelled || r.query != q then s
    else
      { s with
        finalResultsSet := true
        everythingResults := resp
        everythingTotalCount := some tc
        everythingCurrentCount := resp.length
        displayedResultsCount := min resp.length MAX_DISPLAY_RESULTS
        isSearchingEverything := false }

/-- Rejection of the awaited call (`catch` branch, lines 637-674 plus
`finally`): dropped under the same guard; otherwise the disk-search results
and counts are cleared (the availability re-probe touches no modelled
field). -/
def resolveErrL (q : String) (s : LState) : LState :=
  match s.currentSearch with
  | none => s
  | some r =>
    if r.cancelled || r.query != q then s
    else
      { s with
        everythingResults := []
        everythingTotalCount := none
        everythingCurrentCount := 0
        isSearchingEverything := false }

/-- The `onScroll` handler of the results list (LauncherWindow lines
1167-1201).  Near the bottom (within 50px), with
`totalCount := everythingTotalCount ?? everythingResults.length` exceeding the
current window, the window grows by `MAX_DISPLAY_RESULTS` clamped to
`min(totalCount, everythingResults.length || totalCount)` (the JS `||` falls
back to `totalCount` when the array is empty). -/
def onScroll (scrollTop scrollHeight clientHeight : Int) (s : LState) : LState :=
  if scrollHeight - scrollTop - clientHeight < 50 then
    let totalCount := s.everythingTotalCount.getD s.everythingResults.length
    if s.displayedResultsCount < totalCount then
      let next := s.displayedResultsCount + MAX_DISPLAY_RESULTS
      let maxCount :=
        min totalCount
          (if s.everythingResults.length == 0 then totalCount
           else s.everythingResults.length)
      { s with displayedResultsCount := min next maxCount }
    else s
  else s

/-- The empty-query branch of the debounce effect (LauncherWindow lines
303-319): the current request is marked cancelled and dropped, all
disk-search state cleared, the display window reset to the base
(`finalResultsSetRef` is not touched there). -/
def clearQuery (s : LState) : LState :=
  { s with
    everythingResults := []
    everythingTotalCount := none
    everythingCurrentCount := 0
    displayedResultsCount := MAX_DISPLAY_RESULTS
    isSearchingEverything := false
    currentSearch := none }

/-- Events that can reach the launcher's disk-search state. -/
inductive LEvent where
  | start (available : Bool) (q : String)
  | batch (tc cc : Nat)
  | resolveOk (q : String) (resp : List EverythingResult) (tc : Nat)
  | resolveErr (q : String)
  | scroll (scrollTop scrollHeight clientHeight : Int)
  | clear
deriving DecidableEq, Repr

/-- One event step on the launcher state. -/
def stepL : LEvent → LState → LState
  | .start available q, s => (startSearchEverything available q s).2
  | .batch tc cc, s => applyBatchL tc cc s
  | .resolveOk q resp tc, s => resolveOkL q resp tc s
  | .resolveErr q, s => resolveErrL q s
  | .scroll st sh ch, s => onScroll st sh ch s
  | .clear, s => clearQuery s

/-- Run an event sequence from a state. -/
def runL (evs : List LEvent) (s : LState) : LState :=
  evs.foldl (fun s e => stepL e s) s

/-! ## keyboardUtils: two-axis navigation state machine -/

/-- The pair of selection indices owned by the launcher
(`selectedHorizontalIndex` / `selectedVerticalIndex`). -/
structure NavState where
  selectedHorizontalIndex : Option Nat
  selectedVerticalIndex : Option Nat
deriving DecidableEq, Repr

/-- Ambient facts `handleKeyDown` reads from the DOM: whether the query input
is focused, its selection range, and the value length. -/
structure KeyEnv where
  inputFocused : Bool
  selectionStart : Nat
  selectionEnd : Nat
  valueLength : Nat
deriving DecidableEq, Repr

/-- The arrow keys handled by `handleKeyDown` (keyboardUtils.ts 176-371). -/
inductive NavKey where
  | arrowDown
  | arrowUp
  | arrowLeft
  | arrowRight
deriving DecidableEq, Repr

/-- `selectFirstHorizontal` (resultUtils, pinned by its unit tests):
index 0 on the horizontal axis, vertical cleared. -/
def selectFirstHorizontal : NavState :=
  { selectedHorizontalIndex := some 0, selectedVerticalIndex := none }

/-- `selectFirstVertical` (resultUtils, pinned by its unit tests):
index 0 on the vertical axis, horizontal cleared. -/
def selectFirstVertical : NavState :=
  { selectedHorizontalIndex := none, selectedVerticalIndex := some 0 }

/-- `resetSelectedIndices` (resultUtils, pinned by its unit tests):
both indices cleared. -/
def resetSelectedIndices : NavState :=
  { selectedHorizontalIndex := none, selectedVerticalIndex := none }

/-- Truthiness of `x !== null && x > 0` for an optional index. -/
def isPosIdx : Option Nat → Bool
  | some i => decide (0 < i)
  | none => false

/-- ArrowDown branch of `handleKeyDown` (keyboardUtils.ts 176-224).  The
returned Bool records whether the input was refocused (never here). -/
def navDown (hLen vLen : Nat) (env : KeyEnv) (s : NavState) : NavState × Bool :=
  match s.selectedHorizontalIndex with
  | some _ =>
    if 0 < vLen then (selectFirstVertical, false) else (s, false)
  | none =>
    match s.selectedVerticalIndex with
    | some j =>
      if j < vLen - 1 then
        ({ s with selectedVerticalIndex := some (j + 1) }, false)
      else (s, false)
    | none =>
      if env.inputFocused && decide (0 < hLen) then (selectFirstHorizontal, false)
      else if env.inputFocused && decide (0 < vLen) then (selectFirstVertical, false)
      else (s, false)

/-- ArrowUp branch of `handleKeyDown` (keyboardUtils.ts 226-275), sequential
conditions as in the source; the Bool records a refocus of the input. -/
def navUp (hLen : Nat) (s : NavState) : NavState × Bool :=
  if s.selectedHorizontalIndex = some 0 then (resetSelectedIndices, true)
  else if s.selectedVerticalIndex = some 0 then
    if 0 < hLen then (selectFirstHorizontal, false)
    else (resetSelectedIndices, true)
  else if isPosIdx s.selectedVerticalIndex then
    ({ s with selectedVerticalIndex := s.selectedVerticalIndex.map (fun j => j - 1) }, false)
  else if isPosIdx s.selectedHorizontalIndex then
    ({ selectedHorizontalIndex := s.selectedHorizontalIndex.map (fun i => i - 1)
       selectedVerticalIndex := none }, false)
  else (s, false)

/-- Core of the ArrowLeft/ArrowRight branch once the caret checks passed
(keyboardUtils.ts 319-364), `right = true` for ArrowRight. -/
def navLRCore (hLen : Nat) (right : Bool) (s : NavState) : NavState :=
  if hLen = 0 then s
  else
    match s.selectedHorizontalIndex with
    | some i =>
      if right then
        { selectedHorizontalIndex := some (if i < hLen - 1 then i + 1 else 0)
          selectedVerticalIndex := none }
      else if i = 0 then
        { selectedHorizontalIndex := some (hLen - 1), selectedVerticalIndex := none }
      else
        { selectedHorizontalIndex := some (if 0 < i then i - 1 else hLen - 1)
          selectedVerticalIndex := none }
    | none =>
      if right then
        { selectedHorizontalIndex := some 0, selectedVerticalIndex := none }
      else
        { selectedHorizontalIndex := some (hLen - 1), selectedVerticalIndex := none }

/-- ArrowLeft/ArrowRight branch with the caret-priority checks
(keyboardUtils.ts 278-313): with the input focused, a live text selection
always yields to the input; ArrowLeft yields unless the horizontal selection
exists and is not the first element; ArrowRight yields while the caret is not
at the far right. -/
def navLR (hLen : Nat) (env : KeyEnv) (right : Bool) (s : NavState) : NavState × Bool :=
  if env.inputFocused then
    if env.selectionStart ≠ env.selectionEnd then (s, false)
    else if !right &&
        !(s.selectedHorizontalIndex ≠ none && s.selectedHorizontalIndex ≠ some 0) then
      (s, false)
    else if right && env.selectionEnd < env.valueLength then (s, false)
    else (navLRCore hLen right s, false)
  else (navLRCore hLen right s, false)

/-- Arrow-key dispatch of `handleKeyDown` over the navigation state; the Bool
result records whether the input was refocused by the transition. -/
def handleKeyDown (hLen vLen : Nat) (env : KeyEnv) : NavKey → NavState → NavState × Bool
  | .arrowDown, s => navDown hLen vLen env s
  | .arrowUp, s => navUp hLen s
  | .arrowLeft, s => navLR hLen env false s
  | .arrowRight, s => navLR hLen env true s

/-- Run a sequence of arrow-key events (each with its own DOM environment)
over the navigation state. -/
def runKeys (hLen vLen : Nat) (keys : List (KeyEnv × NavKey)) (s : NavState) : NavState :=
  keys.foldl (fun s ek => (handleKeyDown hLen vLen ek.1 ek.2 s).1) s

/-- Invariant claimed for the navigation state: at most one axis selected, and
any selected index in bounds of its list. -/
def navOk (hLen vLen : Nat) (s : NavState) : Bool :=
  (s.selectedHorizontalIndex.isNone || s.selectedVerticalIndex.isNone) &&
  (match s.selectedHorizontalIndex with
   | some i => decide (i < hLen)
   | none => true) &&
  (match s.selectedVerticalIndex with
   | some j => decide (j < vLen)
   | none => true)

/-- JS whitespace (`\s`, `String.prototype.trim`) as it can occur in this
codebase's inputs (ASCII range). -/
def jsSpace (c : Char) : Bool :=
  c = ' ' || c = '\t' || c = '\n' || c = '\r' || c = '\x0B' || c = '\x0C'

/-- JS `String.prototype.trim`: drop leading and trailing whitespace. -/
def jsTrim (s : String) : String :=
  String.mk (((s.data.dropWhile jsSpace).reverse.dropWhile jsSpace).reverse)

/-! ## LauncherWindow: debounced query dispatcher -/

/-- Debounce delay of the launcher's query effect (LauncherWindow line 336). -/
def DEBOUNCE_MS : Nat := 500

/-- Event-loop model of the debounce effect (LauncherWindow lines 302-340).
`pending` is the timer scheduled by the previous query change, as
`(deadline, query)`.  Each incoming change `(t, q)` first lets the pending
timer fire when its deadline was reached before the change (the React cleanup
`clearTimeout` cancels it otherwise), then schedules a timer for `q` at
`t + DEBOUNCE_MS` — unless `q` trims to empty, in which case the effect clears
state synchronously and schedules nothing.  A timer still pending after the
last change eventually fires.  The returned list is the sequence of committed
searches (the queries handed to the source adapters). -/
def goCommits (pending : Option (Nat × String)) : List (Nat × String) → List String
  | [] =>
    match pending with
    | some p => [p.2]
    | none => []
  | (t, q) :: rest =>
    (match pending with
     | some p => if p.1 ≤ t then [p.2] else []
     | none => []) ++
    goCommits (if jsTrim q == "" then none else some (t + DEBOUNCE_MS, q)) rest

/-- Committed searches produced by a sequence of raw query changes
`(time, rawQuery)`, starting with no pending timer. -/
def debounceCommits (changes : List (Nat × String)) : List String :=
  goCommits none changes

/-- All successive changes fall within one debounce window: each change
arrives before the previous change's timer deadline. -/
def withinWindow : List (Nat × String) → Bool
  | a :: b :: rest => decide (b.1 < a.1 + DEBOUNCE_MS) && withinWindow (b :: rest)
  | _ => true

/-! ## LauncherWindow: extractUrls -/

/-- Characters admitted by `[^\s<>"']` in the URL pattern. -/
def isUrlChar (c : Char) : Bool :=
  !(jsSpace c || c = '<' || c = '>' || c = '"' || c = '\'')

/-- JS `[a-zA-Z0-9]`. -/
def isAlnumJS (c : Char) : Bool :=
  c.isAlpha || c.isDigit

/-- JS `[a-zA-Z0-9-]`. -/
def isAlnumDash (c : Char) : Bool :=
  isAlnumJS c || c = '-'

/-- Case-insensitive literal prefix match; returns the matched text as it
appears in the input together with the rest. -/
def ciStrip : List Char → List Char → Option (List Char × List Char)
  | [], cs => some ([], cs)
  | _ :: _, [] => none
  | p :: ps, c :: cs =>
    if c.toLower = p.toLower then
      (ciStrip ps cs).map (fun pr => (c :: pr.1, pr.2))
    else none

/-- First alternative `https?:\/\/[^\s<>"']+` of the URL pattern at the
current position; the greedy `s?` tries the longer scheme literal first, and
the tail class requires at least one character. -/
def tryHttpAlt (cs : List Char) : Option (List Char × List Char) :=
  let viaScheme := fun (m : List Char × List Char) =>
    let run := m.2.takeWhile isUrlChar
    if run.isEmpty then none
    else some (m.1 ++ run, m.2.drop run.length)
  match ciStrip "https://".data cs with
  | some m => viaScheme m
  | none =>
    match ciStrip "http://".data cs with
    | some m => viaScheme m
    | none => none

/-- Second alternative `www\.[^\s<>"']+` of the URL pattern. -/
def tryWwwAlt (cs : List Char) : Option (List Char × List Char) :=
  match ciStrip "www.".data cs with
  | some m =>
    let run := m.2.takeWhile isUrlChar
    if run.isEmpty then none
    else some (m.1 ++ run, m.2.drop run.length)
  | none => none

/-- Tail `\.[a-zA-Z]{2,}` of the domain alternative: a dot followed greedily
by at least two ASCII letters. -/
def tryDotLetters (cs : List Char) : Option (List Char × List Char) :=
  match cs with
  | '.' :: rest =>
    let letters := rest.takeWhile Char.isAlpha
    if 2 ≤ letters.length then
      some ('.' :: letters, rest.drop letters.length)
    else none
  | _ => none

/-- One attempt at a fixed `[a-zA-Z0-9-]` run length `k`: the optional
`[a-zA-Z0-9]?` greedily first, then `\.[a-zA-Z]{2,}`. -/
def tryLabelAt (rest : List Char) (k : Nat) : Option (List Char × List Char) :=
  let afterK := rest.drop k
  let taken := rest.take k
  let withOpt : Option (List Char × List Char) :=
    match afterK with
    | a :: r2 =>
      if isAlnumJS a then
        (tryDotLetters r2).map (fun m => (taken ++ a :: m.1, m.2))
      else none
    | [] => none
  match withOpt with
  | some m => some m
  | none => (tryDotLetters afterK).map (fun m => (taken ++ m.1, m.2))

/-- Greedy backtracking of `[a-zA-Z0-9-]{0,61}[a-zA-Z0-9]?\.[a-zA-Z]{2,}`:
run lengths are tried from the longest downwards, as the regex engine
does. -/
def tryLabelSplit (rest : List Char) : Nat → Option (List Char × List Char)
  | 0 => tryLabelAt rest 0
  | k + 1 =>
    match tryLabelAt rest (k + 1) with
    | some m => some m
    | none => tryLabelSplit rest k

/-- Head `[a-zA-Z0-9][a-zA-Z0-9-]{0,61}[a-zA-Z0-9]?\.[a-zA-Z]{2,}` shared by
the third URL-pattern alternative and the anchored domain test. -/
def tryDomainCore (cs : List Char) : Option (List Char × List Char) :=
  match cs with
  | c0 :: rest =>
    if isAlnumJS c0 then
      let runLen := (rest.takeWhile isAlnumDash).length
      (tryLabelSplit rest (min 61 runLen)).map (fun m => (c0 :: m.1, m.2))
    else none
  | [] => none

/-- Third alternative of the URL pattern: the domain head followed by its
trailing `[^\s<>"']*`. -/
def tryDomainAlt (cs : List Char) : Option (List Char × List Char) :=
  (tryDomainCore cs).map (fun m =>
    let tail := m.2.takeWhile isUrlChar
    (m.1 ++ tail, m.2.drop tail.length))

/-- One attempt of the URL pattern at the current position: the three
alternatives in source order. -/
def tryUrlAt (cs : List Char) : Option (List Char × List Char) :=
  match tryHttpAlt cs with
  | some m => some m
  | none =>
    match tryWwwAlt cs with
    | some m => some m
    | none => tryDomainAlt cs

/-- Global matching of the URL pattern: repeated leftmost matches, advancing
one character when no alternative matches.  `fuel` bounds the scan; every
match consumes at least one character, so the text length suffices. -/
def jsMatchAll : Nat → List Char → List String
  | 0, _ => []
  | _, [] => []
  | fuel + 1, c :: cs =>
    match tryUrlAt (c :: cs) with
    | some m => String.mk m.1 :: jsMatchAll fuel m.2
    | none => jsMatchAll fuel cs

/-- The trailing-punctuation class of the strip step. -/
def isTrailPunct (c : Char) : Bool :=
  c = '.' || c = ',' || c = ';' || c = ':' || c = '!' || c = '?'

/-- The strip step (LauncherWindow line 280): the lookahead sits at
end-of-input where it always holds, so the replace removes exactly the
maximal trailing run of the punctuation class. -/
def stripTrailingPunct (s : String) : String :=
  String.mk ((s.data.reverse.dropWhile isTrailPunct).reverse)

/-- The case-insensitive scheme test of LauncherWindow line 283: the anchored
pattern `https?:\/\/` matched case-insensitively at the start. -/
def hasHttpScheme (s : String) : Bool :=
  (ciStrip "http://".data s.data).isSome || (ciStrip "https://".data s.data).isSome

/-- The anchored domain-like test of LauncherWindow line 289. -/
def matchesDomainHead (s : String) : Bool :=
  (tryDomainCore s.data).isSome

/-- Branching of the normalization step on the trimmed, punctuation-stripped
match: keep scheme-ful matches verbatim, prefix the https scheme onto `www.`
and domain-like matches, drop the rest. -/
def normalizeStripped (u : String) : Option String :=
  if hasHttpScheme u then some u
  else if "www.".data.isPrefixOf u.data then some ("https://" ++ u)
  else if matchesDomainHead u then some ("https://" ++ u)
  else none

/-- Normalization applied to each raw match (LauncherWindow lines 276-296):
trim, strip trailing punctuation, then branch on the shape. -/
def normalizeUrlMatch (m : String) : Option String :=
  normalizeStripped (stripTrailingPunct (jsTrim m))

/-- The de-duplication filter of LauncherWindow line 298: keep an element
exactly when its index equals the index of its first occurrence. -/
def keepFirstOccurrences (l : List String) : List String :=
  (l.enum.filter (fun p => l.indexOf p.2 == p.1)).map Prod.snd

/-- `extractUrls` (LauncherWindow lines 263-299): empty-ish input short-cut,
global pattern match, per-match normalization, removal of nulls and empties,
first-occurrence de-duplication. -/
def extractUrls (text : String) : List String :=
  if (jsTrim text).length = 0 then []
  else
    keepFirstOccurrences
      ((((jsMatchAll text.length text.data).map normalizeUrlMatch).reduceOption).filter
        (fun u => 0 < u.length))

/-! ## Guard lemmas -/

theorem applyBatchES_live (batch : List EverythingResult) (tc cc : Nat) (s : ESState)
    (hlive : (s.currentSearch.map (fun r => r.cancelled)).getD false = false) :
    applyBatchES batch tc cc s =
      { s with
        results := s.results ++ batch.filter (fun r => !pathMem s.results r.path)
        totalCount := some tc
        currentCount := cc } := by
  unfold applyBatchES
  rw [hlive]
  simp

theorem applyFinalES_live (q : String) (resp : List EverythingResult) (tc : Nat) (s : ESState)
    (h : s.currentSearch = some { query := q, cancelled := false }) :
    applyFinalES q resp tc s =
      { s with
        results := dedupByPath resp
        totalCount := some tc
        currentCount := (dedupByPath resp).length
        isSearching := false } := by
  unfold applyFinalES
  rw [h]
  simp

theorem applyBatchES_currentSearch (batch : List EverythingResult) (tc cc : Nat) (s : ESState) :
    (applyBatchES batch tc cc s).currentSearch = s.currentSearch := by
  unfold applyBatchES
  split <;> rfl

/-- Fold a list of batch events `(resultsDelta, totalCount, currentCount)`
through the accumulator listener. -/
def foldBatchesES (bs : List (List EverythingResult × Nat × Nat)) (s : ESState) : ESState :=
  bs.foldl (fun s b => applyBatchES b.1 b.2.1 b.2.2 s) s

theorem foldBatchesES_currentSearch (bs : List (List EverythingResult × Nat × Nat)) (s : ESState) :
    (foldBatchesES bs s).currentSearch = s.currentSearch := by
  induction bs generalizing s with
  | nil => rfl
  | cons b bs ih =>
    have hstep : foldBatchesES (b :: bs) s = foldBatchesES bs (applyBatchES b.1 b.2.1 b.2.2 s) := rfl
    rw [hstep, ih, applyBatchES_currentSearch]

theorem applyBatchL_currentSearch (tc cc : Nat) (s : LState) :
    (applyBatchL tc cc s).currentSearch = s.currentSearch := by
  unfold applyBatchL
  split <;> rfl

/-- Fold a list of launcher batch events `(totalCount, currentCount)` through
the launcher listener. -/
def foldBatchesL (bs : List (Nat × Nat)) (s : LState) : LState :=
  bs.foldl (fun s b => applyBatchL b.1 b.2 s) s

theorem foldBatchesL_currentSearch (bs : List (Nat × Nat)) (s : LState) :
    (foldBatchesL bs s).currentSearch = s.currentSearch := by
  induction bs generalizing s with
  | nil => rfl
  | cons b bs ih =>
    have hstep : foldBatchesL (b :: bs) s = foldBatchesL bs (applyBatchL b.1 b.2 s) := rfl
    rw [hstep, ih, applyBatchL_currentSearch]

theorem resolveOkL_live (q : String) (resp : List EverythingResult) (tc : Nat) (s : LState)
    (h : s.currentSearch = some { query := q, cancelled := false }) :
    resolveOkL q resp tc s =
      { s with
        finalResultsSet := true
        everythingResults := resp
        everythingTotalCount := some tc
        everythingCurrentCount := resp.length
        displayedResultsCount := min resp.length MAX_DISPLAY_RESULTS
        isSearchingEverything := false } := by
  unfold resolveOkL
  rw [h]
  simp

theorem resolveOkL_stale (q q' : String) (c : Bool) (resp : List EverythingResult) (tc : Nat)
    (s : LState) (h : s.currentSearch = some { query := q', cancelled := c }) (hq : q' ≠ q) :
    resolveOkL q resp tc s = s := by
  unfold resolveOkL
  rw [h]
  simp [hq]

theorem resolveErrL_stale (q q' : String) (c : Bool) (s : LState)
    (h : s.currentSearch = some { query := q', cancelled := c }) (hq : q' ≠ q) :
    resolveErrL q s = s := by
  unfold resolveErrL
  rw [h]
  simp [hq]

/-! ## Path-membership lemmas -/

theorem pathMem_append (a b : List EverythingResult) (p : String) :
    pathMem (a ++ b) p = (pathMem a p || pathMem b p) := by
  simp [pathMem, List.any_append]

theorem pathMem_of_mem (rs : List EverythingResult) (r : EverythingResult) (hr : r ∈ rs) :
    pathMem rs r.path = true := by
  simp only [pathMem, List.any_eq_true]
  exact ⟨r, hr, by simp⟩

/-- C4: merging a batch whose paths are all already present leaves the
accumulated items unchanged in length; merging any batch grows the length by
exactly the number of batch entries whose path was not previously present;
and re-merging the same batch is the identity on the accumulator state. -/
theorem batch_merge_idempotent
    (s : ESState) (batch : List EverythingResult) (tc cc : Nat)
    (hlive : (s.currentSearch.map (fun r => r.cancelled)).getD false = false) :
    ((∀ r ∈ batch, pathMem s.results r.path = true) →
      (applyBatchES batch tc cc s).results.length = s.results.length)
    ∧ (applyBatchES batch tc cc s).results.length
        = s.results.length + batch.countP (fun r => !pathMem s.results r.path)
    ∧ applyBatchES batch tc cc (applyBatchES batch tc cc s) = applyBatchES batch tc cc s := by
  obtain ⟨res, tcnt, ccnt, isrch, cur⟩ := s
  rw [applyBatchES_live batch tc cc _ hlive]
  refine ⟨?_, ?_, ?_⟩
  · intro hall
    have hf : batch.filter (fun r => !pathMem res r.path) = [] := by
      rw [List.filter_eq_nil_iff]
      intro r hr
      simp [hall r hr]
    simp [hf]
  · simp [List.countP_eq_length_filter]
  · dsimp only
    have hfilter :
        batch.filter
            (fun r => !pathMem (res ++ batch.filter (fun r => !pathMem res r.path)) r.path)
          = [] := by
      rw [List.filter_eq_nil_iff]
      intro r hr
      by_cases hp : pathMem res r.path = true
      · simp [pathMem_append, hp]
      · have hrf : r ∈ batch.filter (fun r => !pathMem res r.path) :=
          List.mem_filter.mpr ⟨hr, by simp [hp]⟩
        simp [pathMem_append, pathMem_of_mem _ r hrf]
    rw [applyBatchES_live batch tc cc
        { results := res ++ batch.filter (fun r => !pathMem res r.path)
          totalCount := some tc
          currentCount := cc
          isSearching := isrch
          currentSearch := cur } hlive]
    simp [hfilter]

/-! ## C1: final response overrides the streamed accumulation -/

/-- C1 (amended): after any sequence of batch events, the resolution of the
awaited call for a still-current non-cancelled request leaves, in
`EverythingSearchWindow`, exactly the authoritative list de-duplicated by
path (first occurrence wins) with the authoritative count; in
`LauncherWindow` it leaves the authoritative list exactly as delivered (no
de-duplication) with the authoritative count — in both cases independent of
how many batches arrived or in what order. -/
theorem final_overrides_partial
    (s : ESState) (bs : List (List EverythingResult × Nat × Nat))
    (sL : LState) (bsL : List (Nat × Nat))
    (q : String) (resp : List EverythingResult) (tc : Nat)
    (hcur : s.currentSearch = some { query := q, cancelled := false })
    (hcurL : sL.currentSearch = some { query := q, cancelled := false }) :
    ((applyFinalES q resp tc (foldBatchesES bs s)).results = dedupByPath resp
      ∧ (applyFinalES q resp tc (foldBatchesES bs s)).totalCount = some tc
      ∧ (applyFinalES q resp tc (foldBatchesES bs s)).currentCount = (dedupByPath resp).length)
    ∧ ((resolveOkL q resp tc (foldBatchesL bsL sL)).everythingResults = resp
      ∧ (resolveOkL q resp tc (foldBatchesL bsL sL)).everythingTotalCount = some tc
      ∧ (resolveOkL q resp tc (foldBatchesL bsL sL)).everythingCurrentCount = resp.length) := by
  have h1 : (foldBatchesES bs s).currentSearch = some { query := q, cancelled := false } := by
    rw [foldBatchesES_currentSearch]; exact hcur
  have h2 : (foldBatchesL bsL sL).currentSearch = some { query := q, cancelled := false } := by
    rw [foldBatchesL_currentSearch]; exact hcurL
  rw [applyFinalES_live _ _ _ _ h1, resolveOkL_live _ _ _ _ h2]
  exact ⟨⟨rfl, rfl, rfl⟩, ⟨rfl, rfl, rfl⟩⟩

/-- C1 counterexample: in `LauncherWindow` the final response of a
still-current request whose list repeats a path is applied verbatim, so the
post-final items differ from the de-duplicated list the claim prescribes. -/
theorem launcher_final_not_deduplicated :
    (resolveOkL "a" [{ name := "n", path := "p" }, { name := "n", path := "p" }] 2
        (startSearchEverything true "a" initL).2).everythingResults
      = [{ name := "n", path := "p" }, { name := "n", path := "p" }]
    ∧ dedupByPath [{ name := "n", path := "p" }, { name := "n", path := "p" }]
      = [{ name := "n", path := "p" }]
    ∧ ([{ name := "n", path := "p" }, { name := "n", path := "p" }] : List EverythingResult)
      ≠ dedupByPath [{ name := "n", path := "p" }, { name := "n", path := "p" }] := by
  decide

/-! ## C2: cancellation of superseded requests -/

/-- C2 (amended): when a second query with a different string is committed
before the first resolves, the first request's record is marked cancelled,
and as long as the second request is still current and live, the first
call's resolution or rejection leaves the launcher state untouched. -/
theorem stale_resolution_discarded
    (q1 q2 : String) (resp : List EverythingResult) (tc : Nat) (s : LState)
    (hne : q1 ≠ q2) :
    (startSearchEverything true q2 (startSearchEverything true q1 s).2).1
      = some { query := q1, cancelled := true }
    ∧ (∀ s' : LState,
        s'.currentSearch = some { query := q2, cancelled := false } →
        resolveOkL q1 resp tc s' = s' ∧ resolveErrL q1 s' = s') := by
  refine ⟨rfl, fun s' h => ?_⟩
  exact ⟨resolveOkL_stale q1 q2 false resp tc s' h (Ne.symm hne),
         resolveErrL_stale q1 q2 false s' h (Ne.symm hne)⟩

/-- C2 counterexample: committing the *same* query string twice marks the
first request cancelled, yet the resolution guard compares only the current
request's query string, so the first call's late resolution still mutates the
result state — and, arriving after the second call's resolution, overwrites
it. -/
theorem same_query_stale_applied :
    (startSearchEverything true "a" (startSearchEverything true "a" initL).2).1
      = some { query := "a", cancelled := true }
    ∧ (startSearchEverything true "a"
        (startSearchEverything true "a" initL).2).2.everythingResults = []
    ∧ (resolveOkL "a" [{ name := "r1", path := "p1" }] 1
        (startSearchEverything true "a"
          (startSearchEverything true "a" initL).2).2).everythingResults
      = [{ name := "r1", path := "p1" }]
    ∧ (resolveOkL "a" [{ name := "r1", path := "p1" }] 1
        (resolveOkL "a" [{ name := "r2", path := "p2" }] 1
          (startSearchEverything true "a"
            (startSearchEverything true "a" initL).2).2)).everythingResults
      = [{ name := "r1", path := "p1" }] := by
  decide

/-! ## C5: the final-result flag -/

/-- C5 (code bug exhibited): the resolution sets `finalResultsSetRef`, but the
batch listener never consults it, so a batch event arriving afterwards for
the still-current request overwrites the final `totalCount`/`currentCount`. -/
theorem final_flag_never_consulted :
    (resolveOkL "a" [{ name := "hit", path := "C:/hit" }] 1
        (startSearchEverything true "a" initL).2).finalResultsSet = true
    ∧ (resolveOkL "a" [{ name := "hit", path := "C:/hit" }] 1
        (startSearchEverything true "a" initL).2).everythingTotalCount = some 1
    ∧ (resolveOkL "a" [{ name := "hit", path := "C:/hit" }] 1
        (startSearchEverything true "a" initL).2).everythingCurrentCount = 1
    ∧ (applyBatchL 700 700 (resolveOkL "a" [{ name := "hit", path := "C:/hit" }] 1
        (startSearchEverything true "a" initL).2)).finalResultsSet = true
    ∧ (applyBatchL 700 700 (resolveOkL "a" [{ name := "hit", path := "C:/hit" }] 1
        (startSearchEverything true "a" initL).2)).everythingTotalCount = some 700
    ∧ (applyBatchL 700 700 (resolveOkL "a" [{ name := "hit", path := "C:/hit" }] 1
        (startSearchEverything true "a" initL).2)).everythingCurrentCount = 700 := by
  decide

/-! ## C3 / C6: display window -/

/-- Display-window invariant maintained by every launcher event: once the
disk-search results are non-empty, the window never exceeds their length. -/
def dispInv (s : LState) : Prop :=
  0 < s.everythingResults.length → s.displayedResultsCount ≤ s.everythingResults.length

theorem dispInv_init : dispInv initL := by
  intro h
  simp [initL] at h

theorem resolveOkL_none (q : String) (resp : List EverythingResult) (tc : Nat) (s : LState)
    (hc : s.currentSearch = none) : resolveOkL q resp tc s = s := by
  unfold resolveOkL
  rw [hc]

theorem resolveOkL_eq (q : String) (resp : List EverythingResult) (tc : Nat) (s : LState)
    (r : SearchRequest) (hc : s.currentSearch = some r) :
    resolveOkL q resp tc s =
      if r.cancelled || r.query != q then s
      else
        { s with
          finalResultsSet := true
          everythingResults := resp
          everythingTotalCount := some tc
          everythingCurrentCount := resp.length
          displayedResultsCount := min resp.length MAX_DISPLAY_RESULTS
          isSearchingEverything := false } := by
  unfold resolveOkL
  rw [hc]

theorem resolveErrL_none (q : String) (s : LState) (hc : s.currentSearch = none) :
    resolveErrL q s = s := by
  unfold resolveErrL
  rw [hc]

theorem resolveErrL_eq (q : String) (s : LState) (r : SearchRequest)
    (hc : s.currentSearch = some r) :
    resolveErrL q s =
      if r.cancelled || r.query != q then s
      else
        { s with
          everythingResults := []
          everythingTotalCount := none
          everythingCurrentCount := 0
          isSearchingEverything := false } := by
  unfold resolveErrL
  rw [hc]

theorem onScroll_eq (st sh ch : Int) (s : LState) :
    onScroll st sh ch s =
      if sh - st - ch < 50 then
        if s.displayedResultsCount < s.everythingTotalCount.getD s.everythingResults.length then
          { s with
            displayedResultsCount :=
              min (s.displayedResultsCount + MAX_DISPLAY_RESULTS)
                (min (s.everythingTotalCount.getD s.everythingResults.length)
                  (if s.everythingResults.length == 0
                   then s.everythingTotalCount.getD s.everythingResults.length
                   else s.everythingResults.length)) }
        else s
      else s := rfl

theorem dispInv_step (e : LEvent) (s : LState) (hs : dispInv s) : dispInv (stepL e s) := by
  cases e with
  | start available q =>
    show dispInv (startSearchEverything available q s).2
    cases available <;> (intro h; simp [startSearchEverything] at h)
  | batch tc cc =>
    show dispInv (applyBatchL tc cc s)
    unfold applyBatchL
    split
    · exact hs
    · exact hs
  | resolveOk q resp tc =>
    show dispInv (resolveOkL q resp tc s)
    cases hc : s.currentSearch with
    | none => rw [resolveOkL_none q resp tc s hc]; exact hs
    | some r =>
      rw [resolveOkL_eq q resp tc s r hc]
      split
      · exact hs
      · intro _
        show min resp.length MAX_DISPLAY_RESULTS ≤ resp.length
        exact min_le_left _ _
  | resolveErr q =>
    show dispInv (resolveErrL q s)
    cases hc : s.currentSearch with
    | none => rw [resolveErrL_none q s hc]; exact hs
    | some r =>
      rw [resolveErrL_eq q s r hc]
      split
      · exact hs
      · intro h
        simp at h
  | scroll st sh ch =>
    show dispInv (onScroll st sh ch s)
    rw [onScroll_eq]
    by_cases h1 : sh - st - ch < 50
    · rw [if_pos h1]
      by_cases h2 : s.displayedResultsCount
          < s.everythingTotalCount.getD s.everythingResults.length
      · rw [if_pos h2]
        intro h
        have hpos : 0 < s.everythingResults.length := h
        have hlen : (s.everythingResults.length == 0) = false := by
          simp only [beq_eq_false_iff_ne, ne_eq]
          omega
        show min (s.displayedResultsCount + MAX_DISPLAY_RESULTS)
            (min (s.everythingTotalCount.getD s.everythingResults.length)
              (if s.everythingResults.length == 0
               then s.everythingTotalCount.getD s.everythingResults.length
               else s.everythingResults.length)) ≤ s.everythingResults.length
        rw [hlen, if_neg Bool.false_ne_true]
        exact le_trans (min_le_right _ _) (min_le_right _ _)
      · rw [if_neg h2]
        exact hs
    · rw [if_neg h1]
      exact hs
  | clear =>
    show dispInv (clearQuery s)
    intro h
    simp [clearQuery] at h

theorem dispInv_run (evs : List LEvent) (s : LState) (hs : dispInv s) : dispInv (runL evs s) := by
  induction evs generalizing s with
  | nil => exact hs
  | cons e evs ih =>
    have hstep : runL (e :: evs) s = runL evs (stepL e s) := rfl
    rw [hstep]
    exact ih _ (dispInv_step e s hs)

theorem onScroll_nondecreasing (st sh ch : Int) (s : LState) (hs : dispInv s) :
    s.displayedResultsCount ≤ (onScroll st sh ch s).displayedResultsCount := by
  rw [onScroll_eq]
  by_cases h1 : sh - st - ch < 50
  · rw [if_pos h1]
    by_cases h2 : s.displayedResultsCount
        < s.everythingTotalCount.getD s.everythingResults.length
    · rw [if_pos h2]
      show s.displayedResultsCount
          ≤ min (s.displayedResultsCount + MAX_DISPLAY_RESULTS)
              (min (s.everythingTotalCount.getD s.everythingResults.length)
                (if s.everythingResults.length == 0
                 then s.everythingTotalCount.getD s.everythingResults.length
                 else s.everythingResults.length))
      refine le_min (Nat.le_add_right _ _) (le_min (le_of_lt h2) ?_)
      by_cases hlen : s.everythingResults.length = 0
      · rw [if_pos (by simp [hlen])]
        exact le_of_lt h2
      · rw [if_neg (by simp [hlen])]
        exact hs (Nat.pos_of_ne_zero hlen)
    · rw [if_neg h2]
  · rw [if_neg h1]

/-- C3 (amended): in every reachable launcher state, a scroll event never
decreases the display window and a batch event never changes it; committing
a new query or clearing the query resets it to the base of 500; the final
response's arrival sets it to `min(authoritative length, 500)` — which can
decrease it. -/
theorem display_window_monotonic_amended
    (evs : List LEvent) (st sh ch : Int) (tc cc : Nat) (q : String)
    (resp : List EverythingResult) (rtc : Nat)
    (hcur : (runL evs initL).currentSearch = some { query := q, cancelled := false }) :
    (runL evs initL).displayedResultsCount
        ≤ (onScroll st sh ch (runL evs initL)).displayedResultsCount
    ∧ (applyBatchL tc cc (runL evs initL)).displayedResultsCount
        = (runL evs initL).displayedResultsCount
    ∧ (startSearchEverything true q (runL evs initL)).2.displayedResultsCount
        = MAX_DISPLAY_RESULTS
    ∧ (clearQuery (runL evs initL)).displayedResultsCount = MAX_DISPLAY_RESULTS
    ∧ (resolveOkL q resp rtc (runL evs initL)).displayedResultsCount
        = min resp.length MAX_DISPLAY_RESULTS := by
  refine ⟨onScroll_nondecreasing st sh ch _ (dispInv_run evs initL dispInv_init), ?_, rfl, rfl, ?_⟩
  · unfold applyBatchL
    split <;> rfl
  · rw [resolveOkL_live q resp rtc _ hcur]

/-- C3 counterexample: within one query's lifetime (no query change or
clear), a batch reports a large total, a scroll grows the window to 1000,
and then the final response's arrival drops it to `min(0, 500) = 0`. -/
theorem final_arrival_shrinks_window :
    (runL [LEvent.start true "a", LEvent.batch 2000 0,
           LEvent.scroll 0 100 60] initL).displayedResultsCount = 1000
    ∧ (runL [LEvent.start true "a", LEvent.batch 2000 0,
             LEvent.scroll 0 100 60, LEvent.resolveOk "a" [] 0]
        initL).displayedResultsCount = 0 := by
  decide

set_option maxRecDepth 8000 in
/-- C6: the display window starts at the base 500 on each committed query;
a scroll-near-bottom event with more known results than the current window
grows it by 500 clamped to the known result count; with 1200 authoritative
results the window runs 500, then 1000 after one scroll-near-bottom event,
then 1200 (clamped) after a second. -/
theorem display_window_growth
    (s : LState) (st sh ch : Int) (q : String)
    (hnear : sh - st - ch < 50)
    (hmore : s.displayedResultsCount
        < s.everythingTotalCount.getD s.everythingResults.length) :
    (startSearchEverything true q s).2.displayedResultsCount = 500
    ∧ (onScroll st sh ch s).displayedResultsCount
        = min (s.displayedResultsCount + 500)
            (min (s.everythingTotalCount.getD s.everythingResults.length)
              (if s.everythingResults.length == 0
               then s.everythingTotalCount.getD s.everythingResults.length
               else s.everythingResults.length))
    ∧ (onScroll st sh ch s).displayedResultsCount
        ≤ s.everythingTotalCount.getD s.everythingResults.length
    ∧ (let s1 := resolveOkL "q" (List.replicate 1200 { name := "n", path := "p" }) 1200
          (startSearchEverything true "q" initL).2
       s1.displayedResultsCount = 500
       ∧ (onScroll 0 100 60 s1).displayedResultsCount = 1000
       ∧ (onScroll 0 100 60 (onScroll 0 100 60 s1)).displayedResultsCount = 1200) := by
  have hgrow : (onScroll st sh ch s).displayedResultsCount
      = min (s.displayedResultsCount + 500)
          (min (s.everythingTotalCount.getD s.everythingResults.length)
            (if s.everythingResults.length == 0
             then s.everythingTotalCount.getD s.everythingResults.length
             else s.everythingResults.length)) := by
    rw [onScroll_eq, if_pos hnear, if_pos hmore]
    rfl
  refine ⟨rfl, hgrow, ?_, ?_⟩
  · rw [hgrow]
    exact le_trans (min_le_right _ _) (min_le_left _ _)
  · decide

/-! ## C7: debounced dispatch -/

theorem goCommits_cons (pending : Option (Nat × String)) (t : Nat) (q : String)
    (rest : List (Nat × String)) :
    goCommits pending ((t, q) :: rest) =
      (match pending with
       | some p => if p.1 ≤ t then [p.2] else []
       | none => []) ++
      goCommits (if jsTrim q == "" then none else some (t + DEBOUNCE_MS, q)) rest := rfl

theorem fired_eq_nil (pending : Option (Nat × String)) (t : Nat)
    (hpend : ∀ d p, pending = some (d, p) → t < d) :
    (match pending with
     | some p => if p.1 ≤ t then [p.2] else []
     | none => ([] : List String)) = [] := by
  cases pending with
  | none => rfl
  | some p =>
    have hd := hpend p.1 p.2 rfl
    show (if p.1 ≤ t then [p.2] else []) = []
    rw [if_neg (by omega)]

theorem goCommits_within (rest : List (Nat × String)) :
    ∀ (t tl : Nat) (q ql : String) (pending : Option (Nat × String)),
    (∀ d p, pending = some (d, p) → t < d) →
    withinWindow ((t, q) :: rest) = true →
    ((t, q) :: rest).getLast? = some (tl, ql) →
    jsTrim ql ≠ "" →
    goCommits pending ((t, q) :: rest) = [ql] := by
  induction rest with
  | nil =>
    intro t tl q ql pending hpend hwin hlast hql
    have hq : q = ql := by simpa using congrArg (fun o => (Option.map Prod.snd o)) hlast
    subst hq
    rw [goCommits_cons, fired_eq_nil pending t hpend]
    have htrim : (jsTrim q == "") = false := beq_eq_false_iff_ne.mpr hql
    rw [htrim]
    rfl
  | cons c rest ih =>
    intro t tl q ql pending hpend hwin hlast hql
    obtain ⟨t2, q2⟩ := c
    have hwin' : t2 < t + DEBOUNCE_MS ∧ withinWindow ((t2, q2) :: rest) = true := by
      have : (decide (t2 < t + DEBOUNCE_MS) && withinWindow ((t2, q2) :: rest)) = true := hwin
      simpa using this
    have hlast' : ((t2, q2) :: rest).getLast? = some (tl, ql) := by
      simpa [List.getLast?_cons_cons] using hlast
    rw [goCommits_cons, fired_eq_nil pending t hpend]
    rw [List.nil_append]
    apply ih t2 tl q2 ql _ _ hwin'.2 hlast' hql
    intro d p hp
    by_cases hq : (jsTrim q == "") = true
    · rw [if_pos hq] at hp
      simp at hp
    · rw [if_neg hq] at hp
      have : d = t + DEBOUNCE_MS := by
        have := congrArg (fun o => (Option.map Prod.fst o)) hp
        simpa using this.symm
      omega

/-- C7: for a sequence of raw query changes all falling within one debounce
window of each other, whose last query is non-empty after trimming, each
change cancels the previous pending timer and exactly one committed search
fires, carrying the last query only; no superseded intermediate query is ever
committed. -/
theorem debounce_commits_last (changes : List (Nat × String)) (tl : Nat) (ql : String)
    (hlast : changes.getLast? = some (tl, ql)) (hwin : withinWindow changes = true)
    (hql : jsTrim ql ≠ "") :
    debounceCommits changes = [ql] := by
  cases changes with
  | nil => simp at hlast
  | cons c rest =>
    obtain ⟨t, q⟩ := c
    exact goCommits_within rest t tl q ql none (by intro d p hp; simp at hp) hwin hlast hql

/-! ## C8 / C9: navigation state machine -/

theorem navOk_hBound (hLen vLen : Nat) (oH oV : Option Nat)
    (h : navOk hLen vLen ⟨oH, oV⟩ = true) : ∀ i, oH = some i → i < hLen := by
  intro i hi
  subst hi
  unfold navOk at h
  simp only [Bool.and_eq_true] at h
  simpa using h.1.2

theorem navOk_vBound (hLen vLen : Nat) (oH oV : Option Nat)
    (h : navOk hLen vLen ⟨oH, oV⟩ = true) : ∀ j, oV = some j → j < vLen := by
  intro j hj
  subst hj
  unfold navOk at h
  simp only [Bool.and_eq_true] at h
  simpa using h.2

theorem navOk_oneAxis (hLen vLen : Nat) (oH oV : Option Nat)
    (h : navOk hLen vLen ⟨oH, oV⟩ = true) : oH = none ∨ oV = none := by
  unfold navOk at h
  simp only [Bool.and_eq_true] at h
  have h1 := h.1.1
  simp only [Bool.or_eq_true, Option.isNone_iff_eq_none] at h1
  exact h1

theorem navOk_navLRCore (hLen vLen : Nat) (right : Bool) (s : NavState)
    (hs : navOk hLen vLen s = true) : navOk hLen vLen (navLRCore hLen right s) = true := by
  obtain ⟨oH, oV⟩ := s
  unfold navLRCore
  by_cases hL : hLen = 0
  · rw [if_pos hL]
    exact hs
  · rw [if_neg hL]
    cases oH with
    | some i =>
      have hi : i < hLen := navOk_hBound hLen vLen (some i) oV hs i rfl
      dsimp only
      by_cases hr : right = true
      · rw [if_pos hr]
        simp [navOk]
        split <;> omega
      · rw [if_neg hr]
        by_cases hi0 : i = 0
        · rw [if_pos hi0]
          simp [navOk]
          omega
        · rw [if_neg hi0]
          simp [navOk]
          split <;> omega
    | none =>
      dsimp only
      by_cases hr : right = true
      · rw [if_pos hr]
        simp [navOk]
        omega
      · rw [if_neg hr]
        simp [navOk]
        omega

theorem navOk_step (hLen vLen : Nat) (env : KeyEnv) (k : NavKey) (s : NavState)
    (hs : navOk hLen vLen s = true) :
    navOk hLen vLen (handleKeyDown hLen vLen env k s).1 = true := by
  obtain ⟨oH, oV⟩ := s
  cases k with
  | arrowDown =>
    show navOk hLen vLen (navDown hLen vLen env ⟨oH, oV⟩).1 = true
    cases oH with
    | some i =>
      show navOk hLen vLen
          (if 0 < vLen then (selectFirstVertical, false) else (⟨some i, oV⟩, false)).1 = true
      by_cases hv : 0 < vLen
      · rw [if_pos hv]
        simp [navOk, selectFirstVertical]
        omega
      · rw [if_neg hv]
        exact hs
    | none =>
      cases oV with
      | some j =>
        show navOk hLen vLen
            (if j < vLen - 1 then ((⟨none, some (j + 1)⟩ : NavState), false)
             else (⟨none, some j⟩, false)).1 = true
        by_cases hj : j < vLen - 1
        · rw [if_pos hj]
          simp [navOk]
          omega
        · rw [if_neg hj]
          exact hs
      | none =>
        show navOk hLen vLen
            (if env.inputFocused && decide (0 < hLen) then (selectFirstHorizontal, false)
             else if env.inputFocused && decide (0 < vLen) then (selectFirstVertical, false)
             else ((⟨none, none⟩ : NavState), false)).1 = true
        by_cases h1 : (env.inputFocused && decide (0 < hLen)) = true
        · rw [if_pos h1]
          simp only [Bool.and_eq_true, decide_eq_true_eq] at h1
          simp [navOk, selectFirstHorizontal]
          omega
        · rw [if_neg h1]
          by_cases h2 : (env.inputFocused && decide (0 < vLen)) = true
          · rw [if_pos h2]
            simp only [Bool.and_eq_true, decide_eq_true_eq] at h2
            simp [navOk, selectFirstVertical]
            omega
          · rw [if_neg h2]
            simp [navOk]
  | arrowUp =>
    show navOk hLen vLen (navUp hLen ⟨oH, oV⟩).1 = true
    unfold navUp
    dsimp only
    by_cases hH0 : oH = some 0
    · rw [if_pos hH0]
      simp [navOk, resetSelectedIndices]
    · rw [if_neg hH0]
      by_cases hV0 : oV = some 0
      · rw [if_pos hV0]
        by_cases hL : 0 < hLen
        · rw [if_pos hL]
          simp [navOk, selectFirstHorizontal]
          omega
        · rw [if_neg hL]
          simp [navOk, resetSelectedIndices]
      · rw [if_neg hV0]
        by_cases hVp : isPosIdx oV = true
        · rw [if_pos hVp]
          cases oV with
          | none => simp [isPosIdx] at hVp
          | some j =>
            have hj : j < vLen := navOk_vBound hLen vLen oH (some j) hs j rfl
            have hOn : oH = none := by
              rcases navOk_oneAxis hLen vLen oH (some j) hs with h | h
              · exact h
              · simp at h
            subst hOn
            simp [navOk]
            omega
        · rw [if_neg hVp]
          by_cases hHp : isPosIdx oH = true
          · rw [if_pos hHp]
            cases oH with
            | none => simp [isPosIdx] at hHp
            | some i =>
              have hi : i < hLen := navOk_hBound hLen vLen (some i) oV hs i rfl
              simp [navOk]
              omega
          · rw [if_neg hHp]
            exact hs
  | arrowLeft =>
    show navOk hLen vLen (navLR hLen env false ⟨oH, oV⟩).1 = true
    unfold navLR
    by_cases hf : env.inputFocused = true
    · rw [if_pos hf]
      split
      · exact hs
      · split
        · exact hs
        · split
          · exact hs
          · exact navOk_navLRCore hLen vLen false _ hs
    · rw [if_neg hf]
      exact navOk_navLRCore hLen vLen false _ hs
  | arrowRight =>
    show navOk hLen vLen (navLR hLen env true ⟨oH, oV⟩).1 = true
    unfold navLR
    by_cases hf : env.inputFocused = true
    · rw [if_pos hf]
      split
      · exact hs
      · split
        · exact hs
        · split
          · exact hs
          · exact navOk_navLRCore hLen vLen true _ hs
    · rw [if_neg hf]
      exact navOk_navLRCore hLen vLen true _ hs

/-- C8: starting from any navigation state satisfying the invariant, every
sequence of arrow-key events (whatever the input-focus and caret situation at
each press) keeps at most one of the two selection indices non-null and every
non-null index strictly below its list's length. -/
theorem navigation_invariant (hLen vLen : Nat) (keys : List (KeyEnv × NavKey)) (s0 : NavState)
    (h0 : navOk hLen vLen s0 = true) :
    navOk hLen vLen (runKeys hLen vLen keys s0) = true := by
  induction keys generalizing s0 with
  | nil => exact h0
  | cons ek keys ih =>
    have hstep : runKeys hLen vLen (ek :: keys) s0
        = runKeys hLen vLen keys (handleKeyDown hLen vLen ek.1 ek.2 s0).1 := rfl
    rw [hstep]
    exact ih _ (navOk_step hLen vLen ek.1 ek.2 s0 h0)

/-- C9: Down from any horizontal selection with a non-empty vertical list
jumps to vertical(0); Up from vertical(0) goes to horizontal(0) when the
horizontal list is non-empty — not back to the originating horizontal index —
and otherwise refocuses the input and clears the selection. -/
theorem navigation_two_axis (hLen vLen : Nat) (env : KeyEnv) (i : Nat) (s : NavState)
    (hsel : s.selectedHorizontalIndex = some i) (hv : 0 < vLen) :
    handleKeyDown hLen vLen env .arrowDown s = (selectFirstVertical, false)
    ∧ (0 < hLen →
        handleKeyDown hLen vLen env .arrowUp selectFirstVertical = (selectFirstHorizontal, false))
    ∧ (hLen = 0 →
        handleKeyDown hLen vLen env .arrowUp selectFirstVertical
          = (resetSelectedIndices, true)) := by
  refine ⟨?_, ?_, ?_⟩
  · show navDown hLen vLen env s = (selectFirstVertical, false)
    unfold navDown
    rw [hsel]
    rw [if_pos hv]
  · intro hL
    show navUp hLen selectFirstVertical = (selectFirstHorizontal, false)
    unfold navUp
    rw [if_neg (by simp [selectFirstVertical]), if_pos (by simp [selectFirstVertical]),
      if_pos hL]
  · intro hL
    show navUp hLen selectFirstVertical = (resetSelectedIndices, true)
    unfold navUp
    rw [if_neg (by simp [selectFirstVertical]), if_pos (by simp [selectFirstVertical]),
      if_neg (by omega)]

/-! ## C10: extractUrls properties -/

theorem ciStrip_self (p rest : List Char) : (ciStrip p (p ++ rest)).isSome = true := by
  induction p with
  | nil => rfl
  | cons c cs ih =>
    show (ciStrip (c :: cs) (c :: (cs ++ rest))).isSome = true
    unfold ciStrip
    rw [if_pos rfl]
    simpa using ih

theorem hasHttpScheme_append (u : String) : hasHttpScheme ("https://" ++ u) = true := by
  unfold hasHttpScheme
  have hd : ("https://" ++ u).data = "https://".data ++ u.data := rfl
  rw [hd, ciStrip_self]
  simp

theorem normalizeStripped_scheme (u0 u : String) (h : normalizeStripped u0 = some u) :
    hasHttpScheme u = true := by
  unfold normalizeStripped at h
  by_cases h1 : hasHttpScheme u0 = true
  · rw [if_pos h1] at h
    obtain rfl : u0 = u := by simpa using h
    exact h1
  · rw [if_neg h1] at h
    by_cases h2 : "www.".data.isPrefixOf u0.data = true
    · rw [if_pos h2] at h
      obtain rfl : "https://" ++ u0 = u := by simpa using h
      exact hasHttpScheme_append u0
    · rw [if_neg h2] at h
      by_cases h3 : matchesDomainHead u0 = true
      · rw [if_pos h3] at h
        obtain rfl : "https://" ++ u0 = u := by simpa using h
        exact hasHttpScheme_append u0
      · rw [if_neg h3] at h
        simp at h

theorem mem_of_mem_keepFirstOccurrences (l : List String) (u : String)
    (hu : u ∈ keepFirstOccurrences l) : u ∈ l := by
  unfold keepFirstOccurrences at hu
  rcases List.mem_map.mp hu with ⟨p, hp, rfl⟩
  have hpe : p ∈ l.enum := List.mem_of_mem_filter hp
  have hm : p.2 ∈ l.enum.map Prod.snd := List.mem_map_of_mem _ hpe
  rwa [List.enum_map_snd] at hm

theorem keepFirstOccurrences_nodup (l : List String) : (keepFirstOccurrences l).Nodup := by
  unfold keepFirstOccurrences
  have h1 : (l.enum.map Prod.fst).Nodup := by
    rw [List.enum_map_fst]
    exact List.nodup_range _
  have h2 : l.enum.Pairwise (fun a b => a.1 ≠ b.1) := List.pairwise_map.mp h1
  have h3 := h2.filter (fun p => l.indexOf p.2 == p.1)
  have h4 : (l.enum.filter (fun p => l.indexOf p.2 == p.1)).Pairwise
      (fun a b => a.2 ≠ b.2) := by
    refine List.Pairwise.imp_of_mem ?_ h3
    intro a b ha hb hne heq
    have pa : l.indexOf a.2 = a.1 := by simpa using List.of_mem_filter ha
    have pb : l.indexOf b.2 = b.1 := by simpa using List.of_mem_filter hb
    exact hne (by rw [← pa, ← pb, heq])
  exact List.pairwise_map.mpr h4

/-- C10 (amended): for every input, every entry of `extractUrls` begins —
case-insensitively — with the http or https scheme (scheme-less matches are
normalized by prefixing the lowercase https scheme), the returned list holds
no duplicate entries, and empty or whitespace-only input yields the empty
list. -/
theorem extractUrls_properties (text : String) :
    (∀ u ∈ extractUrls text, hasHttpScheme u = true)
    ∧ (extractUrls text).Nodup
    ∧ ((jsTrim text).length = 0 → extractUrls text = []) := by
  refine ⟨?_, ?_, ?_⟩
  · intro u hu
    unfold extractUrls at hu
    by_cases h0 : (jsTrim text).length = 0
    · rw [if_pos h0] at hu
      simp at hu
    · rw [if_neg h0] at hu
      have hu1 := mem_of_mem_keepFirstOccurrences _ _ hu
      have hu2 := (List.mem_filter.mp hu1).1
      have hu3 : some u ∈ (jsMatchAll text.length text.data).map normalizeUrlMatch :=
        List.reduceOption_mem_iff.mp hu2
      rcases List.mem_map.mp hu3 with ⟨m, _, hnm⟩
      exact normalizeStripped_scheme (stripTrailingPunct (jsTrim m)) u hnm
  · unfold extractUrls
    by_cases h0 : (jsTrim text).length = 0
    · rw [if_pos h0]
      exact List.nodup_nil
    · rw [if_neg h0]
      exact keepFirstOccurrences_nodup _
  · intro h0
    unfold extractUrls
    rw [if_pos h0]

/-- C10 counterexample: an uppercase-scheme input is matched
case-insensitively and returned verbatim, so the returned entry does not
begin with the literal lowercase `http://` or `https://`. -/
theorem extractUrls_uppercase_scheme :
    extractUrls "HTTP://A.COM" = ["HTTP://A.COM"]
    ∧ "http://".data.isPrefixOf "HTTP://A.COM".data = false
    ∧ "https://".data.isPrefixOf "HTTP://A.COM".data = false := by
  refine ⟨by decide, by decide, by decide⟩

/-! ## Witnesses -/

/-- Witness for C1 at a concrete state, batch list and response. -/
theorem final_overrides_partial_witness :
    ((applyFinalES "a" [{ name := "x", path := "p" }, { name := "y", path := "p" }] 2
        (foldBatchesES [([{ name := "b", path := "pb" }], 5, 1)]
          { results := [], totalCount := none, currentCount := 0, isSearching := true,
            currentSearch := some { query := "a", cancelled := false } })).results
      = dedupByPath [{ name := "x", path := "p" }, { name := "y", path := "p" }]
      ∧ (applyFinalES "a" [{ name := "x", path := "p" }, { name := "y", path := "p" }] 2
          (foldBatchesES [([{ name := "b", path := "pb" }], 5, 1)]
            { results := [], totalCount := none, currentCount := 0, isSearching := true,
              currentSearch := some { query := "a", cancelled := false } })).totalCount = some 2
      ∧ (applyFinalES "a" [{ name := "x", path := "p" }, { name := "y", path := "p" }] 2
          (foldBatchesES [([{ name := "b", path := "pb" }], 5, 1)]
            { results := [], totalCount := none, currentCount := 0, isSearching := true,
              currentSearch := some { query := "a", cancelled := false } })).currentCount
        = (dedupByPath [{ name := "x", path := "p" }, { name := "y", path := "p" }]).length)
    ∧ ((resolveOkL "a" [{ name := "x", path := "p" }, { name := "y", path := "p" }] 2
          (foldBatchesL [(9, 5)] (startSearchEverything true "a" initL).2)).everythingResults
        = [{ name := "x", path := "p" }, { name := "y", path := "p" }]
      ∧ (resolveOkL "a" [{ name := "x", path := "p" }, { name := "y", path := "p" }] 2
          (foldBatchesL [(9, 5)] (startSearchEverything true "a" initL).2)).everythingTotalCount
        = some 2
      ∧ (resolveOkL "a" [{ name := "x", path := "p" }, { name := "y", path := "p" }] 2
          (foldBatchesL [(9, 5)]
            (startSearchEverything true "a" initL).2)).everythingCurrentCount
        = ([{ name := "x", path := "p" }, { name := "y", path := "p" }]
            : List EverythingResult).length) :=
  final_overrides_partial
    { results := [], totalCount := none, currentCount := 0, isSearching := true,
      currentSearch := some { query := "a", cancelled := false } }
    [([{ name := "b", path := "pb" }], 5, 1)]
    (startSearchEverything true "a" initL).2 [(9, 5)]
    "a" [{ name := "x", path := "p" }, { name := "y", path := "p" }] 2
    (by decide) (by decide)

/-- Witness for C2 at concrete queries "a" and "ab". -/
theorem stale_resolution_discarded_witness :
    (startSearchEverything true "ab" (startSearchEverything true "a" initL).2).1
      = some { query := "a", cancelled := true }
    ∧ (resolveOkL "a" [{ name := "n", path := "p" }] 1
          (startSearchEverything true "ab" (startSearchEverything true "a" initL).2).2
        = (startSearchEverything true "ab" (startSearchEverything true "a" initL).2).2
      ∧ resolveErrL "a"
          (startSearchEverything true "ab" (startSearchEverything true "a" initL).2).2
        = (startSearchEverything true "ab" (startSearchEverything true "a" initL).2).2) :=
  have h := stale_resolution_discarded "a" "ab" [{ name := "n", path := "p" }] 1 initL
    (by decide)
  ⟨h.1, h.2 (startSearchEverything true "ab" (startSearchEverything true "a" initL).2).2
    (by decide)⟩

/-- Witness for C3 at a concrete reachable state. -/
theorem display_window_monotonic_amended_witness :
    (runL [LEvent.start true "a"] initL).displayedResultsCount
      ≤ (onScroll 0 0 0 (runL [LEvent.start true "a"] initL)).displayedResultsCount
    ∧ (resolveOkL "a" [{ name := "n", path := "p" }] 7
        (runL [LEvent.start true "a"] initL)).displayedResultsCount = 1 :=
  have h := display_window_monotonic_amended [LEvent.start true "a"] 0 0 0 3 1 "a"
    [{ name := "n", path := "p" }] 7 (by decide)
  ⟨h.1, h.2.2.2.2⟩

/-- Witness for C4 at a concrete accumulator state and batches. -/
theorem batch_merge_idempotent_witness :
    (applyBatchES [{ name := "a", path := "p1" }] 5 2
        { results := [{ name := "a", path := "p1" }], totalCount := some 4, currentCount := 1,
          isSearching := true,
          currentSearch := some { query := "q", cancelled := false } }).results.length = 1
    ∧ (applyBatchES [{ name := "a", path := "p1" }, { name := "b", path := "p2" }] 5 2
        { results := [{ name := "a", path := "p1" }], totalCount := some 4, currentCount := 1,
          isSearching := true,
          currentSearch := some { query := "q", cancelled := false } }).results.length = 1 + 1
    ∧ applyBatchES [{ name := "a", path := "p1" }, { name := "b", path := "p2" }] 5 2
        (applyBatchES [{ name := "a", path := "p1" }, { name := "b", path := "p2" }] 5 2
          { results := [{ name := "a", path := "p1" }], totalCount := some 4, currentCount := 1,
            isSearching := true,
            currentSearch := some { query := "q", cancelled := false } })
      = applyBatchES [{ name := "a", path := "p1" }, { name := "b", path := "p2" }] 5 2
          { results := [{ name := "a", path := "p1" }], totalCount := some 4, currentCount := 1,
            isSearching := true,
            currentSearch := some { query := "q", cancelled := false } } :=
  have h1 := batch_merge_idempotent
    { results := [{ name := "a", path := "p1" }], totalCount := some 4, currentCount := 1,
      isSearching := true, currentSearch := some { query := "q", cancelled := false } }
    [{ name := "a", path := "p1" }] 5 2 (by decide)
  have h2 := batch_merge_idempotent
    { results := [{ name := "a", path := "p1" }], totalCount := some 4, currentCount := 1,
      isSearching := true, currentSearch := some { query := "q", cancelled := false } }
    [{ name := "a", path := "p1" }, { name := "b", path := "p2" }] 5 2 (by decide)
  ⟨h1.1 (by decide), h2.2.1, h2.2.2⟩

/-- Witness for C6 at a concrete pre-scroll state. -/
theorem display_window_growth_witness :
    (startSearchEverything true "a"
        { everythingResults := [], everythingTotalCount := some 2000,
          everythingCurrentCount := 0, displayedResultsCount := 500,
          finalResultsSet := false, isSearchingEverything := true,
          currentSearch := some { query := "a", cancelled := false } }).2.displayedResultsCount
      = 500
    ∧ (onScroll 0 0 0
        { everythingResults := [], everythingTotalCount := some 2000,
          everythingCurrentCount := 0, displayedResultsCount := 500,
          finalResultsSet := false, isSearchingEverything := true,
          currentSearch := some { query := "a", cancelled := false } }).displayedResultsCount
      ≤ 2000
    ∧ ((resolveOkL "q" (List.replicate 1200 { name := "n", path := "p" }) 1200
          (startSearchEverything true "q" initL).2).displayedResultsCount = 500
      ∧ (onScroll 0 100 60
          (resolveOkL "q" (List.replicate 1200 { name := "n", path := "p" }) 1200
            (startSearchEverything true "q" initL).2)).displayedResultsCount = 1000
      ∧ (onScroll 0 100 60 (onScroll 0 100 60
          (resolveOkL "q" (List.replicate 1200 { name := "n", path := "p" }) 1200
            (startSearchEverything true "q" initL).2))).displayedResultsCount = 1200) :=
  have h := display_window_growth
    { everythingResults := [], everythingTotalCount := some 2000,
      everythingCurrentCount := 0, displayedResultsCount := 500,
      finalResultsSet := false, isSearchingEverything := true,
      currentSearch := some { query := "a", cancelled := false } }
    0 0 0 "a" (by decide) (by decide)
  ⟨h.1, h.2.2.1, h.2.2.2⟩

/-- Witness for C7 at the spec's scenario: "a" then "ab" typed within one
debounce window. -/
theorem debounce_commits_last_witness :
    debounceCommits [(0, "a"), (300, "ab")] = ["ab"] :=
  debounce_commits_last [(0, "a"), (300, "ab")] 300 "ab" (by decide) (by decide) (by decide)

/-- Witness for C8 at a concrete key sequence. -/
theorem navigation_invariant_witness :
    navOk 1 1
      (runKeys 1 1
        [({ inputFocused := true, selectionStart := 0, selectionEnd := 0, valueLength := 0 },
          NavKey.arrowDown)]
        { selectedHorizontalIndex := none, selectedVerticalIndex := none }) = true :=
  navigation_invariant 1 1
    [({ inputFocused := true, selectionStart := 0, selectionEnd := 0, valueLength := 0 },
      NavKey.arrowDown)]
    { selectedHorizontalIndex := none, selectedVerticalIndex := none } (by decide)

/-- Witness for C9 at concrete list lengths. -/
theorem navigation_two_axis_witness :
    handleKeyDown 3 5
      { inputFocused := true, selectionStart := 0, selectionEnd := 0, valueLength := 0 }
      NavKey.arrowDown
      { selectedHorizontalIndex := some 2, selectedVerticalIndex := none }
      = (selectFirstVertical, false)
    ∧ handleKeyDown 3 5
        { inputFocused := true, selectionStart := 0, selectionEnd := 0, valueLength := 0 }
        NavKey.arrowUp selectFirstVertical = (selectFirstHorizontal, false)
    ∧ handleKeyDown 0 5
        { inputFocused := true, selectionStart := 0, selectionEnd := 0, valueLength := 0 }
        NavKey.arrowUp selectFirstVertical = (resetSelectedIndices, true) :=
  have hA := navigation_two_axis 3 5
    { inputFocused := true, selectionStart := 0, selectionEnd := 0, valueLength := 0 } 2
    { selectedHorizontalIndex := some 2, selectedVerticalIndex := none } rfl (by decide)
  have hB := navigation_two_axis 0 5
    { inputFocused := true, selectionStart := 0, selectionEnd := 0, valueLength := 0 } 2
    { selectedHorizontalIndex := some 2, selectedVerticalIndex := none } rfl (by decide)
  ⟨hA.1, hA.2.1 (by decide), hB.2.2 rfl⟩

/-- Witness for C10 at concrete inputs. -/
theorem extractUrls_properties_witness :
    (∀ u ∈ extractUrls "visit example.com", hasHttpScheme u = true)
    ∧ (extractUrls "visit example.com").Nodup
    ∧ extractUrls " " = [] :=
  ⟨(extractUrls_properties "visit example.com").1,
   (extractUrls_properties "visit example.com").2.1,
   (extractUrls_properties " ").2.2 (by decide)⟩

end ReFast
